import Mathlib

/-!
Formal model of the gamification engine of the `todo` application
(`src/todo/core/scoring.py`, `src/todo/core/achievements.py`,
`src/todo/core/goals.py`), together with theorems settling the
specification claims about it.

Modelling conventions:
* calendar dates are integers (a day ordinal); `date + timedelta(days=1)`
  is `+ 1` and `(a - b).days` is `a - b`;
* Python `int` is `Nat` where the source keeps the value non-negative
  (pydantic `ge=0` fields) and `Int` otherwise;
* Python `float` is an exact rational together with an explicit
  round-to-nearest-even-at-53-bits rounding function (`round53`) applied
  after every arithmetic operation, exactly as IEEE-754 binary64 does;
* the persistent store is explicit state threaded through the functions;
  `update_stats` writing a subset of columns becomes a record update of
  exactly those fields.
-/

/-- The `user_stats` record (`UserStats` in `models.py`): the fields the
scoring and achievement services read and write.  Dates are day ordinals. -/
structure UserStats where
  total_points : Nat
  level : Nat
  points_to_next_level : Int
  total_tasks_completed : Nat
  total_tasks_created : Nat
  current_streak_days : Nat
  longest_streak_days : Nat
  last_completion_date : Option Int
  daily_goal : Nat
  weekly_goal : Nat
  monthly_goal : Nat
  achievements_unlocked : Nat
deriving DecidableEq

/-- The default record built by `ScoringService._initialize_user_stats`. -/
def initial_user_stats : UserStats :=
  { total_points := 0
    level := 1
    points_to_next_level := 100
    total_tasks_completed := 0
    total_tasks_created := 0
    current_streak_days := 0
    longest_streak_days := 0
    last_completion_date := none
    daily_goal := 3
    weekly_goal := 20
    monthly_goal := 80
    achievements_unlocked := 0 }

/-- `ScoringService.update_streak`: computes the new streak from the stored
`last_completion_date` and writes back `current_streak_days`,
`longest_streak_days` and `last_completion_date`.  Returns the updated
stats record and the new streak count (the function's return value). -/
def update_streak (s : UserStats) (completion_date : Int) : UserStats × Nat :=
  let new_streak :=
    match s.last_completion_date with
    | none => 1
    | some last =>
      if completion_date = last then s.current_streak_days
      else if completion_date = last + 1 then s.current_streak_days + 1
      else if completion_date - last ≤ 1 then s.current_streak_days
      else 1
  let longest := max s.longest_streak_days new_streak
  ({ s with
      current_streak_days := new_streak
      longest_streak_days := longest
      last_completion_date := some completion_date },
    new_streak)

/-- Folding `update_streak` over a list of completion dates: the state after
a whole sequence of completions. -/
def update_streak_seq (s : UserStats) (ds : List Int) : UserStats :=
  ds.foldl (fun s d => (update_streak s d).1) s

/-- The `level_thresholds` table of `ScoringService.__init__`, verbatim. -/
def level_thresholds : List Nat :=
  [0, 100, 250, 500, 1000, 1750, 2750, 4000, 5500, 7500, 10000, 13000,
   16500, 20500, 25000, 30000, 35500, 41500, 48000, 55000, 62500, 70500,
   79000, 88000, 97500, 107500, 118000, 129000, 140500, 152500, 165000]

/-- The `for level, threshold in enumerate(self.level_thresholds, 1)` loop of
`ScoringService.calculate_level`: `lvl` is the 1-based index of the head of
the remaining list, `acc` holds `(current_level, points_for_current_level)`,
and the loop breaks at the first threshold above `total`. -/
def levelScan (total : Nat) : List Nat → Nat → Nat × Nat → Nat × Nat
  | [], _, acc => acc
  | t :: ts, lvl, acc =>
    if t ≤ total then levelScan total ts (lvl + 1) (lvl, t) else acc

/-- `ScoringService.calculate_level`: returns
`(current_level, points_to_next_level, points_for_current_level)`. -/
def calculate_level (total_points : Nat) : Nat × Int × Nat :=
  let s := levelScan total_points level_thresholds 1 (1, 0)
  let points_to_next : Int :=
    if s.1 < level_thresholds.length
    then (level_thresholds.getD s.1 0 : Int) - (total_points : Int)
    else 0
  (s.1, points_to_next, s.2)

/-- Modelled from the spec words for claim C4: the level is "the 1-based
index of the greatest threshold ≤ total_points".  Rendered with
`Nat.findGreatest`: the greatest 1-based position `i` in the table whose
threshold is at most `total_points` (the table is strictly ascending, so
the greatest admissible position carries the greatest admissible
threshold). -/
def spec_level (p : Nat) : Nat :=
  Nat.findGreatest
    (fun i => 0 < i ∧ level_thresholds.getD (i - 1) 0 ≤ p)
    level_thresholds.length

/-- A dyadic rational `m * 2 ^ e`, the exact value of an IEEE-754 binary64
float.  Exponents are unbounded: no overflow or subnormal handling, which
is adequate because every float in the modelled code is a normal double
far from the exponent limits.  The representation is not normalized; all
operations compare and combine values exactly. -/
structure Dyadic where
  m : Int
  e : Int
deriving DecidableEq

/-- Bit length of a natural number, with structural fuel (the first
argument); `bitlen` below passes `n` itself, which always suffices. -/
def bitlenAux : Nat → Nat → Nat
  | 0, _ => 0
  | fuel + 1, n => if n = 0 then 0 else bitlenAux fuel (n / 2) + 1

/-- Bit length: `bitlen n` is the least `b` with `n < 2 ^ b`. -/
def bitlen (n : Nat) : Nat := bitlenAux n n

/-- Round a dyadic to 53 significant bits, round to nearest, ties to even:
the rounding step an IEEE-754 binary64 operation performs on its exact
result. -/
def round53 (x : Dyadic) : Dyadic :=
  let n := x.m.natAbs
  let b := bitlen n
  if b ≤ 53 then x
  else
    let shift := b - 53
    let q := n / 2 ^ shift
    let r := n % 2 ^ shift
    let half := 2 ^ (shift - 1)
    let q2 :=
      if r < half then q
      else if half < r then q + 1
      else if q % 2 = 0 then q else q + 1
    let sign : Int := if x.m < 0 then -1 else 1
    ⟨sign * q2, x.e + shift⟩

/-- Nearest binary64 value of the positive rational `n / d` (fuel-driven
scaling into the binade `[2 ^ 52, 2 ^ 53)`, then one half-even rounding);
this is the double a Python float literal such as `1.1` denotes. -/
def floatOfRatAux : Nat → Nat → Nat → Int → Dyadic
  | 0, n, _, e => ⟨n, e⟩
  | fuel + 1, n, d, e =>
    if n < 2 ^ 52 * d then floatOfRatAux fuel (2 * n) d (e - 1)
    else if 2 ^ 53 * d ≤ n then floatOfRatAux fuel n (2 * d) (e + 1)
    else
      let q := n / d
      let r := n % d
      let q2 :=
        if 2 * r < d then q
        else if d < 2 * r then q + 1
        else if q % 2 = 0 then q else q + 1
      ⟨q2, e⟩

/-- The binary64 double denoted by the decimal literal `n / d`. -/
def floatOfRat (n d : Nat) : Dyadic := floatOfRatAux (n + d + 120) n d 0

/-- Python int-to-float conversion (exact below `2 ^ 53`, rounded above). -/
def floatOfNat (n : Nat) : Dyadic := round53 ⟨(n : Int), 0⟩

/-- Binary64 subtraction: exact difference, then one rounding. -/
def fsub (a b : Dyadic) : Dyadic :=
  let e := min a.e b.e
  round53 ⟨a.m * 2 ^ (a.e - e).toNat - b.m * 2 ^ (b.e - e).toNat, e⟩

/-- Binary64 multiplication: exact product, then one rounding. -/
def fmul (a b : Dyadic) : Dyadic := round53 ⟨a.m * b.m, a.e + b.e⟩

/-- Exact value comparison of two dyadics (float `<`). -/
def Dyadic.blt (a b : Dyadic) : Bool :=
  let e := min a.e b.e
  a.m * 2 ^ (a.e - e).toNat < b.m * 2 ^ (b.e - e).toNat

/-- Python `int()` applied to a float: truncation toward zero. -/
def pyint (x : Dyadic) : Int :=
  if 0 ≤ x.e then x.m * 2 ^ x.e.toNat
  else (if x.m < 0 then -1 else 1) * ((x.m.natAbs / 2 ^ (-x.e).toNat : Nat) : Int)

/-- The `streak_multipliers` dict of `ScoringService.__init__` in insertion
(ascending-key) order; each value is the binary64 double denoted by the
source literal. -/
def streak_multipliers : List (Nat × Dyadic) :=
  [(3, floatOfRat 11 10), (7, floatOfRat 5 4), (14, floatOfRat 7 5),
   (30, floatOfRat 8 5), (60, floatOfRat 9 5), (100, floatOfRat 2 1)]

/-- The loop of `ScoringService._get_streak_multiplier` over the thresholds
in descending order: the first threshold at most `streak_days` wins,
default multiplier 1.0. -/
def multiplierScan (streak_days : Nat) : List (Nat × Dyadic) → Dyadic
  | [] => ⟨1, 0⟩
  | (t, m) :: rest =>
    if t ≤ streak_days then m else multiplierScan streak_days rest

/-- `ScoringService._get_streak_multiplier`: iterates
`sorted(self.streak_multipliers.items(), reverse=True)`, which is the
reverse of the ascending table. -/
def get_streak_multiplier (streak_days : Nat) : Dyadic :=
  multiplierScan streak_days streak_multipliers.reverse

/-- The streak-bonus component of `ScoringService.calculate_completion_points`
(scoring.py lines 98-104): `int(base_points * (streak_multiplier - 1.0))`
when the multiplier exceeds 1.0, else no bonus.  `base` is the Python int
base-point value; its conversion to float and both float operations round
as binary64 does. -/
def streak_bonus (base streak_days : Nat) : Int :=
  let mult := get_streak_multiplier streak_days
  if Dyadic.blt ⟨1, 0⟩ mult then pyint (fmul (floatOfNat base) (fsub mult ⟨1, 0⟩))
  else 0

/-- Modelled from the spec words for claim C5: the multiplier table read as
exact decimals, highest threshold at most the streak, default 1. -/
def spec_streak_multiplier (streak_days : Nat) : ℚ :=
  if 100 ≤ streak_days then 2
  else if 60 ≤ streak_days then 9 / 5
  else if 30 ≤ streak_days then 8 / 5
  else if 14 ≤ streak_days then 7 / 5
  else if 7 ≤ streak_days then 5 / 4
  else if 3 ≤ streak_days then 11 / 10
  else 1

/-- Modelled from the spec words for claim C5:
`streak_bonus = floor(base * (multiplier - 1))` in exact arithmetic. -/
def spec_streak_bonus (base streak_days : Nat) : Int :=
  ⌊(base : ℚ) * (spec_streak_multiplier streak_days - 1)⌋

/-- One entry of `AchievementService.extended_achievement_definitions`
(description and icon omitted: no modelled code reads them). -/
structure AchievementDef where
  name : String
  requirement_type : String
  requirement_value : Nat
  bonus_points : Nat
deriving DecidableEq

/-- The `extended_achievement_definitions` catalog of
`AchievementService.__init__`, in source order. -/
def extended_achievement_definitions : List AchievementDef :=
  [⟨"First Steps", "tasks_completed", 1, 10⟩,
   ⟨"Getting Started", "tasks_completed", 10, 25⟩,
   ⟨"Productive", "tasks_completed", 50, 50⟩,
   ⟨"Century Club", "tasks_completed", 100, 100⟩,
   ⟨"Task Master", "tasks_completed", 500, 250⟩,
   ⟨"Day One", "streak_days", 1, 5⟩,
   ⟨"Week Warrior", "streak_days", 7, 35⟩,
   ⟨"Month Champion", "streak_days", 30, 150⟩,
   ⟨"Point Collector", "points_earned", 1000, 100⟩,
   ⟨"Point Master", "points_earned", 5000, 500⟩,
   ⟨"Legendary", "tasks_completed", 1000, 500⟩,
   ⟨"Unstoppable", "tasks_completed", 2500, 1000⟩,
   ⟨"Consistency", "streak_days", 3, 15⟩,
   ⟨"Fortnight Force", "streak_days", 14, 70⟩,
   ⟨"Streak Master", "streak_days", 60, 300⟩,
   ⟨"Century Streak", "streak_days", 100, 500⟩,
   ⟨"Point Hunter", "points_earned", 500, 50⟩,
   ⟨"Point Hoarder", "points_earned", 2500, 250⟩,
   ⟨"Point Millionaire", "points_earned", 10000, 1000⟩,
   ⟨"Goal Getter", "daily_goals_met", 1, 20⟩,
   ⟨"Consistent Achiever", "daily_goals_met", 7, 50⟩,
   ⟨"Goal Crusher", "daily_goals_met", 30, 150⟩,
   ⟨"Goal Master", "daily_goals_met", 100, 500⟩,
   ⟨"Level Up", "level_reached", 5, 50⟩,
   ⟨"High Achiever", "level_reached", 10, 100⟩,
   ⟨"Elite Status", "level_reached", 20, 250⟩,
   ⟨"Night Owl", "special_late_completion", 1, 15⟩,
   ⟨"Early Bird", "special_early_completion", 1, 15⟩,
   ⟨"Weekend Warrior", "weekend_completions", 10, 50⟩]

/-- The slice of the persistent store the achievement service touches:
the `achievements` rows (name and unlock flag, in id order), the two
`user_stats` columns `check_and_unlock_achievements` writes, and the
count of daily-activity rows with `daily_goal_met` that
`_count_daily_goals_met` reports. -/
structure Store where
  achievements : List (String × Bool)
  total_points : Nat
  achievements_unlocked : Nat
  goals_met_count : Nat
deriving DecidableEq

/-- `AchievementService._check_requirement` for a present `user_stats`
record: dispatch on the requirement-type string; the `special_*` and
`weekend_completions` types and unknown strings fall through to `False`.
`goalsMet` is the value `_count_daily_goals_met` reads from the store. -/
def check_requirement (goalsMet : Nat) (d : AchievementDef) (us : UserStats) : Bool :=
  if d.requirement_type = "tasks_completed" then
    d.requirement_value ≤ us.total_tasks_completed
  else if d.requirement_type = "streak_days" then
    d.requirement_value ≤ us.current_streak_days
  else if d.requirement_type = "points_earned" then
    d.requirement_value ≤ us.total_points
  else if d.requirement_type = "daily_goals_met" then
    d.requirement_value ≤ goalsMet
  else if d.requirement_type = "level_reached" then
    d.requirement_value ≤ us.level
  else false

/-- `AchievementRepository.unlock_achievement(existing.id)`: set the unlock
flag of the first row with the given name (the row `next(...)` found). -/
def unlock_first (name : String) : List (String × Bool) → List (String × Bool)
  | [] => []
  | a :: rest =>
    if a.1 = name then (a.1, true) :: rest else a :: unlock_first name rest

/-- The mutable state of the `check_and_unlock_achievements` loop: the
store as written so far, the `newly_unlocked` accumulator, the index of
the next repository operation (for fault injection), and whether an
uncaught exception is propagating to the outer handler. -/
structure LoopSt where
  store : Store
  newly : List String
  opIdx : Nat
  aborted : Bool
deriving DecidableEq

/-- Fault injection: `failAt = some k` makes the `k`-th repository
operation of a `check_and_unlock_achievements` call raise a database
error; `none` is the error-free run. -/
def opFails (failAt : Option Nat) (c : Nat) : Bool := failAt = some c

/-- A repository operation completed without raising: advance to the next
operation index. -/
def bumpOp (st : LoopSt) : LoopSt := { st with opIdx := st.opIdx + 1 }

/-- A repository operation raised: advance the index and mark the
exception as propagating to the outer handler. -/
def raiseOp (st : LoopSt) : LoopSt :=
  { st with opIdx := st.opIdx + 1, aborted := true }

/-- `newly_unlocked.append(...)`. -/
def pushNewly (n : String) (st : LoopSt) : LoopSt :=
  { st with newly := st.newly ++ [n] }

/-- `AchievementRepository.unlock_achievement` on the existing row. -/
def setUnlocked (n : String) (st : LoopSt) : LoopSt :=
  { st with store := { st.store with
      achievements := unlock_first n st.store.achievements } }

/-- The two `user_stats` columns `_award_achievement_bonus` writes:
`user_stats.total_points + bonus` and `user_stats.achievements_unlocked
+ 1`, both computed from the `user_stats` argument — a snapshot that is
never refreshed inside the call. -/
def awardBonusSt (us : UserStats) (d : AchievementDef) (st : LoopSt) : LoopSt :=
  { st with store := { st.store with
      total_points := us.total_points + d.bonus_points
      achievements_unlocked := us.achievements_unlocked + 1 } }

/-- The bonus-award tail of one loop iteration:
`if definition["bonus_points"] > 0: self._award_achievement_bonus(...)`.
Returns the new state and whether the loop continues (false = raised). -/
def awardStep (us : UserStats) (failAt : Option Nat) (d : AchievementDef)
    (st : LoopSt) : LoopSt × Bool :=
  if 0 < d.bonus_points then
    if opFails failAt st.opIdx then (raiseOp st, false)
    else (bumpOp (awardBonusSt us d st), true)
  else (st, true)

/-- The unlock-and-award path of one loop iteration, taken once the
requirement is known to hold.  When a row with this name exists, the
unlock write (which can raise to the outer handler) is followed by the
append to `newly_unlocked` and the bonus award.  When no row exists, the
source calls `self.achievement_repo.create(new_achievement)`
(achievements.py line 328), but `AchievementRepository` defines no
`create` method, so that attribute lookup always raises
`AttributeError`; the inner `except Exception: continue` swallows it and
the iteration ends with no insert, no append and no award — this branch
is therefore the identity, and it performs no repository operation. -/
def unlockStep (us : UserStats) (allNames : List String) (failAt : Option Nat)
    (d : AchievementDef) (st : LoopSt) : LoopSt × Bool :=
  if d.name ∈ allNames then
    if opFails failAt st.opIdx then (raiseOp st, false)
    else awardStep us failAt d (bumpOp (pushNewly d.name (setUnlocked d.name st)))
  else (st, true)

/-- One iteration of the `check_and_unlock_achievements` loop for
definition `d`: skip if already unlocked; evaluate the requirement (a
`daily_goals_met` check performs a store read that can raise); if it
holds, take the unlock-and-award path.  `allNames` and `unlockedNames`
are the snapshots taken before the loop. -/
def cauStep (us : UserStats) (goalsMet : Nat) (allNames unlockedNames : List String)
    (failAt : Option Nat) (d : AchievementDef) (st : LoopSt) : LoopSt × Bool :=
  if d.name ∈ unlockedNames then (st, true)
  else if d.requirement_type = "daily_goals_met" ∧ opFails failAt st.opIdx then
    (raiseOp st, false)
  else
    let st1 :=
      if d.requirement_type = "daily_goals_met" then bumpOp st else st
    if check_requirement goalsMet d us then unlockStep us allNames failAt d st1
    else (st1, true)

/-- The `for definition in all_definitions` loop of
`check_and_unlock_achievements`; stops early when an iteration raises. -/
def cauLoop (us : UserStats) (goalsMet : Nat) (allNames unlockedNames : List String)
    (failAt : Option Nat) : List AchievementDef → LoopSt → LoopSt
  | [], st => st
  | d :: ds, st =>
    let r := cauStep us goalsMet allNames unlockedNames failAt d st
    if r.2 then cauLoop us goalsMet allNames unlockedNames failAt ds r.1 else r.1

/-- Names of all achievement rows. -/
def namesOf (achs : List (String × Bool)) : List String :=
  achs.map (fun a => a.1)

/-- The `unlocked_names = {a.name for a in all_achievements if a.is_unlocked}`
snapshot. -/
def unlockedNamesOf (achs : List (String × Bool)) : List String :=
  (achs.filter (fun a => a.2)).map (fun a => a.1)

/-- An achievement row with this name is marked unlocked. -/
def isUnlockedIn (n : String) (achs : List (String × Bool)) : Prop :=
  (n, true) ∈ achs

/-- The names an error-free `check_and_unlock_achievements` loop appends to
`newly_unlocked`: the definitions not in the unlocked-names snapshot whose
requirement holds and for which a row exists in the achievements table
(for the others the broken `create` call raises and the inner handler
skips the append). -/
def appendedNames (us : UserStats) (goalsMet : Nat)
    (allNames unlockedNames : List String) (ds : List AchievementDef) :
    List String :=
  (ds.filter (fun d =>
    decide (d.name ∉ unlockedNames) && check_requirement goalsMet d us
      && decide (d.name ∈ allNames))).map
    (fun d => d.name)

/-- `AchievementService.check_and_unlock_achievements`: returns the final
store and the names of the newly unlocked achievements.  A `None`
`user_stats` is a no-op; a failing initial `get_all_achievements` read
(operation 0) is caught by the outer handler and yields the empty list;
loop operations are numbered from 1. -/
def check_and_unlock_achievements (failAt : Option Nat) (store : Store)
    (user_stats : Option UserStats) : Store × List String :=
  match user_stats with
  | none => (store, [])
  | some us =>
    if opFails failAt 0 then (store, [])
    else
      let st := cauLoop us store.goals_met_count (namesOf store.achievements)
        (unlockedNamesOf store.achievements) failAt
        extended_achievement_definitions ⟨store, [], 1, false⟩
      (st.store, st.newly)

/-- `GoalType` from goals.py. -/
inductive GoalType
  | weekly
  | monthly
deriving DecidableEq

/-- `GoalCategory` from goals.py. -/
inductive GoalCategory
  | tasksCompleted
  | pointsEarned
  | streakDays
  | productivityScore
  | categoryFocus
deriving DecidableEq

/-- A row of the `goals` table (the fields the modelled operations read or
write; `period_start` and `period_end` are day ordinals). -/
structure Goal where
  id : Nat
  goal_type : GoalType
  category : GoalCategory
  target_value : Int
  current_value : Int
  period_start : Int
  period_end : Int
  is_active : Bool
deriving DecidableEq

/-- `GoalService._deactivate_existing_goals`: the SQL
`UPDATE goals SET is_active = FALSE WHERE goal_type = ? AND category = ?
AND is_active = TRUE` as a map over the rows. -/
def deactivate_existing_goals (t : GoalType) (c : GoalCategory)
    (goals : List Goal) : List Goal :=
  goals.map fun g =>
    if g.goal_type = t ∧ g.category = c ∧ g.is_active then
      { g with is_active := false }
    else g

/-- `GoalService.create_goal`: deactivate the matching active goals, then
insert a fresh active goal with `current_value = 0`.  `nextId` is the id
the `goals_id_seq` sequence hands out; `period_start` and `period_end`
are the period bounds `Goal._calculate_period_start/_end` derive from
today's date and the goal type (calendar arithmetic is outside this
model: no claim depends on the bounds). -/
def create_goal (goals : List Goal) (t : GoalType) (c : GoalCategory)
    (target_value : Int) (nextId : Nat) (period_start period_end : Int) :
    List Goal × Goal :=
  let goals1 := deactivate_existing_goals t c goals
  let g : Goal := ⟨nextId, t, c, target_value, 0, period_start, period_end, true⟩
  (goals1 ++ [g], g)

/-- Number of active goals for one `(type, category)` pair. -/
def activeCount (goals : List Goal) (t : GoalType) (c : GoalCategory) : Nat :=
  (goals.filter fun g => g.goal_type = t ∧ g.category = c ∧ g.is_active).length

/-- The invariant the spec states for the goals table: at most one active
goal per `(type, category)` pair. -/
def goalInvariant (goals : List Goal) : Prop :=
  ∀ t c, activeCount goals t c ≤ 1

/-- One suggestion produced by `GoalService.get_goal_suggestions`
(dictionary keys `type`, `category`, `target_value`, `reason`,
`difficulty`). -/
structure Suggestion where
  goal_type : GoalType
  category : GoalCategory
  target_value : Int
  reason : String
  difficulty : String
deriving DecidableEq

/-- `GoalService.get_goal_suggestions`.  Inputs: `avgW` and `avgM` are the
integers `_get_average_weekly_completions` and
`_get_average_monthly_completions` return, `cs` is
`user_stats.current_streak_days or 0`, and `existing` holds the
`(type, category)` pairs of the current goals.  Float arithmetic
(`avg * 1.15`, `avg * 1.2`, `avg_points * 1.1`) rounds as binary64 does
and `int()` truncates; the streak target is pure integer arithmetic:
`min(max(current_streak + 3, 7), 7)`. -/
def get_goal_suggestions (avgW avgM cs : Nat)
    (existing : List (GoalType × GoalCategory)) : List Suggestion :=
  let s1 : List Suggestion :=
    if 0 < avgW then
      [⟨GoalType.weekly, GoalCategory.tasksCompleted,
        max (pyint (fmul (floatOfNat avgW) (floatOfRat 23 20))) ((avgW : Int) + 1),
        "Based on your average of " ++ toString avgW ++ " tasks per week",
        "moderate"⟩]
    else []
  let s2 : List Suggestion :=
    if 0 < avgM then
      [⟨GoalType.monthly, GoalCategory.tasksCompleted,
        max (pyint (fmul (floatOfNat avgM) (floatOfRat 6 5))) ((avgM : Int) + 5),
        "Based on your average of " ++ toString avgM ++ " tasks per month",
        "moderate"⟩]
    else []
  let s3 : List Suggestion :=
    if 0 < cs then
      [⟨GoalType.weekly, GoalCategory.streakDays,
        ((min (max (cs + 3) 7) 7 : Nat) : Int),
        "Extend your current " ++ toString cs ++ "-day streak",
        "achievable"⟩]
    else []
  let avg_points_weekly : Nat := if 0 < avgW then avgW * 10 else 50
  let s4 : List Suggestion :=
    [⟨GoalType.weekly, GoalCategory.pointsEarned,
      pyint (fmul (floatOfNat avg_points_weekly) (floatOfRat 11 10)),
      "Steady points accumulation",
      "easy"⟩]
  let suggestions := s1 ++ s2 ++ s3 ++ s4
  (suggestions.filter fun s =>
    decide ((s.goal_type, s.category) ∉ existing)).take 3

/-- C1: for every call to `update_streak`, a null stored
`last_completion_date` yields streak 1; an equal `completion_date` leaves
the streak unchanged; a `completion_date` exactly one day later increments
it by 1; and a `completion_date` more than one day later resets it to 1. -/
theorem update_streak_cases (s : UserStats) (d : Int) :
    (s.last_completion_date = none → (update_streak s d).2 = 1) ∧
    ∀ last, s.last_completion_date = some last →
      (d = last → (update_streak s d).2 = s.current_streak_days) ∧
      (d = last + 1 → (update_streak s d).2 = s.current_streak_days + 1) ∧
      (last + 1 < d → (update_streak s d).2 = 1) := by
  constructor
  · intro h
    simp [update_streak, h]
  · intro last h
    refine ⟨fun hd => ?_, fun hd => ?_, fun hd => ?_⟩ <;>
      (simp only [update_streak, h]; split_ifs <;> omega)

/-- Witness for C1: a next-day completion after day 10 with streak 4 yields
streak 5. -/
theorem update_streak_cases_witness :
    (update_streak { initial_user_stats with
        last_completion_date := some 10, current_streak_days := 4 } 11).2 = 5 :=
  (((update_streak_cases _ 11).2 10 rfl).2.1) rfl

/-- C6: one `update_streak` call stores
`longest_streak_days = max(previous longest, new streak)`, and across any
sequence of `update_streak` calls `longest_streak_days` never decreases. -/
theorem longest_streak_never_decreases (s : UserStats) (d : Int) (ds : List Int) :
    (update_streak s d).1.longest_streak_days
        = max s.longest_streak_days (update_streak s d).2 ∧
    s.longest_streak_days ≤ (update_streak_seq s ds).longest_streak_days := by
  refine ⟨rfl, ?_⟩
  induction ds generalizing s with
  | nil => simp [update_streak_seq]
  | cons a as ih =>
    have h1 : s.longest_streak_days ≤ (update_streak s a).1.longest_streak_days :=
      le_max_left _ _
    calc s.longest_streak_days ≤ (update_streak s a).1.longest_streak_days := h1
      _ ≤ (update_streak_seq (update_streak s a).1 as).longest_streak_days := ih _
      _ = (update_streak_seq s (a :: as)).longest_streak_days := rfl

/-- C10: a completion dated strictly before the stored
`last_completion_date` leaves the current streak unchanged (the
`(completion_date - last_completion).days <= 1` branch catches every
negative gap) and overwrites `last_completion_date` with the earlier
date. -/
theorem update_streak_backdated (s : UserStats) (last d : Int)
    (h : s.last_completion_date = some last) (hd : d < last) :
    (update_streak s d).2 = s.current_streak_days ∧
    (update_streak s d).1.current_streak_days = s.current_streak_days ∧
    (update_streak s d).1.last_completion_date = some d := by
  refine ⟨?_, ?_, rfl⟩ <;> (simp only [update_streak, h]; split_ifs <;> omega)

/-- Witness for C10: completing on day 3 after a stored completion on
day 10 keeps streak 4. -/
theorem update_streak_backdated_witness :
    (update_streak { initial_user_stats with
        last_completion_date := some 10, current_streak_days := 4 } 3).2 = 4 :=
  (update_streak_backdated _ 10 3 rfl (by omega)).1

/-- The `calculate_level` loop computes, in its first component, the
1-based position after the initial run of thresholds at most `total`. -/
theorem levelScan_fst (total : Nat) (l : List Nat) (lvl : Nat) (acc : Nat × Nat) :
    (levelScan total l lvl acc).1 =
      if (l.takeWhile (fun t => decide (t ≤ total))).length = 0 then acc.1
      else lvl + (l.takeWhile (fun t => decide (t ≤ total))).length - 1 := by
  induction l generalizing lvl acc with
  | nil => simp [levelScan]
  | cons t ts ih =>
    by_cases h : t ≤ total
    · rw [levelScan, if_pos h, ih]
      simp only [List.takeWhile_cons, decide_eq_true_eq, if_pos h]
      split_ifs <;> simp_all
    · rw [levelScan, if_neg h]
      simp [List.takeWhile_cons, h]

/-- On a weakly ascending list the count of elements at most `p` equals
the length of the initial run of such elements. -/
theorem countP_eq_takeWhile_length (p : Nat) (l : List Nat)
    (h : l.Pairwise (fun a b => a ≤ b)) :
    l.countP (fun t => decide (t ≤ p)) =
      (l.takeWhile (fun t => decide (t ≤ p))).length := by
  induction l with
  | nil => simp
  | cons t ts ih =>
    rw [List.pairwise_cons] at h
    by_cases ht : t ≤ p
    · simp only [List.countP_cons, List.takeWhile_cons, decide_eq_true_eq,
        if_pos ht, List.length_cons]
      rw [ih h.2]
    · have hz : ts.countP (fun t => decide (t ≤ p)) = 0 := by
        rw [List.countP_eq_zero]
        intro a ha
        simp only [decide_eq_true_eq]
        have := h.1 a ha
        omega
      simp [List.countP_cons, List.takeWhile_cons, ht, hz]

/-- The last element of the initial run of elements at most `p` is itself
at most `p`. -/
theorem takeWhile_last_le (p : Nat) (l : List Nat)
    (h : 0 < (l.takeWhile (fun t => decide (t ≤ p))).length) :
    l.getD ((l.takeWhile (fun t => decide (t ≤ p))).length - 1) 0 ≤ p := by
  induction l with
  | nil => simp at h
  | cons t ts ih =>
    by_cases ht : t ≤ p
    · simp only [List.takeWhile_cons, decide_eq_true_eq, if_pos ht,
        List.length_cons] at h ⊢
      rcases Nat.eq_zero_or_pos (ts.takeWhile (fun t => decide (t ≤ p))).length
        with hz | hpos
      · simpa [hz] using ht
      · have hstep : (ts.takeWhile (fun t => decide (t ≤ p))).length + 1 - 1 =
            ((ts.takeWhile (fun t => decide (t ≤ p))).length - 1) + 1 := by omega
        rw [hstep, List.getD_cons_succ]
        exact ih hpos
    · simp [List.takeWhile_cons, ht] at h

/-- On a weakly ascending list, any position holding an element at most
`p` lies inside the initial run of such elements. -/
theorem getD_le_lt_takeWhile (p : Nat) (l : List Nat) (j : Nat)
    (hs : l.Pairwise (fun a b => a ≤ b)) (hj : j < l.length)
    (hle : l.getD j 0 ≤ p) :
    j < (l.takeWhile (fun t => decide (t ≤ p))).length := by
  induction l generalizing j with
  | nil => simp at hj
  | cons t ts ih =>
    rw [List.pairwise_cons] at hs
    cases j with
    | zero =>
      rw [List.getD_cons_zero] at hle
      simp [List.takeWhile_cons, hle]
    | succ j =>
      rw [List.getD_cons_succ] at hle
      rw [List.length_cons, Nat.succ_lt_succ_iff] at hj
      have hmem : ts.getD j 0 ∈ ts := by
        have : ts.getD j 0 = ts.get ⟨j, hj⟩ := by
          rw [List.getD_eq_getElem?_getD, List.getElem?_eq_getElem hj]
          simp
        rw [this]
        exact List.get_mem ts j hj
      have ht : t ≤ p := le_trans (hs.1 _ hmem) hle
      simp only [List.takeWhile_cons, decide_eq_true_eq, if_pos ht,
        List.length_cons, Nat.succ_lt_succ_iff]
      exact ih j hs.2 hj hle

/-- The level threshold table is weakly ascending. -/
theorem thresholds_sorted : level_thresholds.Pairwise (fun a b => a ≤ b) := by
  decide

/-- Counting elements at most `p` is monotone in `p`. -/
theorem countP_le_mono (p1 p2 : Nat) (hp : p1 ≤ p2) (l : List Nat) :
    l.countP (fun t => decide (t ≤ p1)) ≤ l.countP (fun t => decide (t ≤ p2)) := by
  induction l with
  | nil => simp
  | cons t ts ih =>
    simp only [List.countP_cons]
    by_cases h1 : t ≤ p1
    · have h2 : t ≤ p2 := le_trans h1 hp
      simp [h1, h2]
      omega
    · by_cases h2 : t ≤ p2 <;> simp [h1, h2] <;> omega

/-- The threshold table starts with 0, so the initial run of thresholds
at most `p` is never empty. -/
theorem takeWhile_thresholds_pos (p : Nat) :
    0 < (level_thresholds.takeWhile (fun t => decide (t ≤ p))).length := by
  have h0 : (0 : Nat) ≤ p := Nat.zero_le p
  rw [level_thresholds]
  simp [List.takeWhile_cons]

/-- The initial run is no longer than the table. -/
theorem takeWhile_thresholds_le (p : Nat) :
    (level_thresholds.takeWhile (fun t => decide (t ≤ p))).length ≤
      level_thresholds.length :=
  List.length_le_of_sublist (List.takeWhile_sublist _)

/-- The spec-side level equals the length of the initial run of thresholds
at most `p`. -/
theorem spec_level_eq_takeWhile (p : Nat) :
    spec_level p = (level_thresholds.takeWhile (fun t => decide (t ≤ p))).length := by
  rw [spec_level, Nat.findGreatest_eq_iff]
  refine ⟨takeWhile_thresholds_le p, fun hne => ⟨?_, ?_⟩, ?_⟩
  · exact takeWhile_thresholds_pos p
  · exact takeWhile_last_le p level_thresholds (takeWhile_thresholds_pos p)
  · intro n hn hnb hP
    have hlt := getD_le_lt_takeWhile p level_thresholds (n - 1) thresholds_sorted
      (by omega) hP.2
    omega

/-- The code-side level equals the spec-side level. -/
theorem calculate_level_fst (p : Nat) : (calculate_level p).1 = spec_level p := by
  rw [spec_level_eq_takeWhile, calculate_level]
  simp only [levelScan_fst]
  have := takeWhile_thresholds_pos p
  split_ifs with h
  · omega
  · omega

/-- Unfolding of the `points_to_next_level` component. -/
theorem calculate_level_snd (p : Nat) :
    (calculate_level p).2.1 =
      if (calculate_level p).1 < level_thresholds.length
      then (level_thresholds.getD (calculate_level p).1 0 : Int) - (p : Int)
      else 0 := rfl

/-- C4: `calculate_level` is a pure function of `total_points` returning
the 1-based index of the greatest threshold at most `total_points`;
`points_to_next_level` is the next threshold minus `total_points`, and 0
at the maximum defined level; and the level is monotone non-decreasing in
the point total. -/
theorem calculate_level_spec (p p1 p2 : Nat) (hp : p1 ≤ p2) :
    (calculate_level p).1 = spec_level p ∧
    (spec_level p < level_thresholds.length →
      (calculate_level p).2.1 =
        (level_thresholds.getD (spec_level p) 0 : Int) - (p : Int)) ∧
    (spec_level p = level_thresholds.length → (calculate_level p).2.1 = 0) ∧
    (calculate_level p1).1 ≤ (calculate_level p2).1 := by
  refine ⟨calculate_level_fst p, fun h => ?_, fun h => ?_, ?_⟩
  · rw [calculate_level_snd, calculate_level_fst p, if_pos h]
  · rw [calculate_level_snd, calculate_level_fst p, h]
    simp
  · rw [calculate_level_fst p1, calculate_level_fst p2,
      spec_level_eq_takeWhile, spec_level_eq_takeWhile,
      ← countP_eq_takeWhile_length _ _ thresholds_sorted,
      ← countP_eq_takeWhile_length _ _ thresholds_sorted]
    exact countP_le_mono p1 p2 hp _

/-- Witness for C4 at `total_points` 300, 100 and 250. -/
theorem calculate_level_spec_witness :
    (100 : Nat) ≤ 250 ∧
    (calculate_level 300).1 = spec_level 300 ∧
    (calculate_level 100).1 ≤ (calculate_level 250).1 := by
  have h := calculate_level_spec 300 100 250 (by decide)
  exact ⟨by decide, h.1, h.2.2.2⟩

/-- C5 (code bug): for a LARGE task (base 5) at streak 14 the code computes
`int(5 * (1.4 - 1.0)) = int(1.9999999999999996) = 1`, while the claimed
`floor(base * (multiplier - 1))` in exact arithmetic is
`floor(5 * 0.4) = 2`.  The remaining conjuncts show the two sides agreeing
at the other multiplier tiers, isolating the divergence to the
double-rounding of `1.4` combined with `int()` truncation. -/
theorem streak_bonus_float_truncation :
    (streak_bonus 5 14 = 1 ∧ spec_streak_bonus 5 14 = 2) ∧
    (streak_bonus 1 14 = 0 ∧ spec_streak_bonus 1 14 = 0) ∧
    (streak_bonus 3 14 = 1 ∧ spec_streak_bonus 3 14 = 1) ∧
    (streak_bonus 5 2 = 0 ∧ spec_streak_bonus 5 2 = 0) ∧
    (streak_bonus 5 3 = 0 ∧ spec_streak_bonus 5 3 = 0) ∧
    (streak_bonus 5 7 = 1 ∧ spec_streak_bonus 5 7 = 1) ∧
    (streak_bonus 5 30 = 3 ∧ spec_streak_bonus 5 30 = 3) ∧
    (streak_bonus 5 60 = 4 ∧ spec_streak_bonus 5 60 = 4) ∧
    (streak_bonus 5 100 = 5 ∧ spec_streak_bonus 5 100 = 5) := by
  refine ⟨⟨?_, ?_⟩, ⟨?_, ?_⟩, ⟨?_, ?_⟩, ⟨?_, ?_⟩, ⟨?_, ?_⟩, ⟨?_, ?_⟩,
    ⟨?_, ?_⟩, ⟨?_, ?_⟩, ⟨?_, ?_⟩⟩ <;>
    first
      | decide
      | norm_num [spec_streak_bonus, spec_streak_multiplier]

theorem unlock_first_names (m : String) (achs : List (String × Bool)) :
    namesOf (unlock_first m achs) = namesOf achs := by
  induction achs with
  | nil => rfl
  | cons a rest ih =>
    rw [unlock_first]
    split_ifs with h
    · simp [namesOf, h]
    · simp only [namesOf, List.map_cons] at ih ⊢
      rw [ih]

theorem unlock_first_mem_true (n m : String) (achs : List (String × Bool))
    (h : (n, true) ∈ achs) : (n, true) ∈ unlock_first m achs := by
  induction achs with
  | nil => simp at h
  | cons a rest ih =>
    rw [unlock_first]
    rcases List.mem_cons.mp h with h1 | h1
    · split_ifs with hm
      · rw [← h1]
        exact List.mem_cons_self _ _
      · rw [h1]
        exact List.mem_cons_self _ _
    · split_ifs with hm
      · exact List.mem_cons_of_mem _ h1
      · exact List.mem_cons_of_mem _ (ih h1)

theorem unlock_first_unlocks (m : String) (achs : List (String × Bool))
    (h : m ∈ namesOf achs) : (m, true) ∈ unlock_first m achs := by
  induction achs with
  | nil => simp [namesOf] at h
  | cons a rest ih =>
    rw [unlock_first]
    split_ifs with hm
    · rw [hm]
      exact List.mem_cons_self _ _
    · simp only [namesOf, List.map_cons, List.mem_cons] at h
      rcases h with h1 | h1
      · exact absurd h1.symm hm
      · exact List.mem_cons_of_mem _ (ih h1)

theorem mem_unlockedNamesOf (n : String) (achs : List (String × Bool)) :
    n ∈ unlockedNamesOf achs ↔ (n, true) ∈ achs := by
  simp only [unlockedNamesOf, List.mem_map, List.mem_filter]
  constructor
  · rintro ⟨⟨a1, a2⟩, ⟨ha, hb⟩, rfl⟩
    simp only at hb
    rw [hb] at ha
    exact ha
  · intro h
    exact ⟨(n, true), ⟨h, rfl⟩, rfl⟩

@[simp] theorem bumpOp_store (st : LoopSt) : (bumpOp st).store = st.store := rfl
@[simp] theorem bumpOp_newly (st : LoopSt) : (bumpOp st).newly = st.newly := rfl
@[simp] theorem bumpOp_opIdx (st : LoopSt) : (bumpOp st).opIdx = st.opIdx + 1 := rfl
@[simp] theorem bumpOp_aborted (st : LoopSt) : (bumpOp st).aborted = st.aborted := rfl
@[simp] theorem raiseOp_store (st : LoopSt) : (raiseOp st).store = st.store := rfl
@[simp] theorem raiseOp_newly (st : LoopSt) : (raiseOp st).newly = st.newly := rfl
@[simp] theorem raiseOp_opIdx (st : LoopSt) : (raiseOp st).opIdx = st.opIdx + 1 := rfl
@[simp] theorem pushNewly_store (n : String) (st : LoopSt) :
    (pushNewly n st).store = st.store := rfl
@[simp] theorem pushNewly_newly (n : String) (st : LoopSt) :
    (pushNewly n st).newly = st.newly ++ [n] := rfl
@[simp] theorem pushNewly_opIdx (n : String) (st : LoopSt) :
    (pushNewly n st).opIdx = st.opIdx := rfl
@[simp] theorem setUnlocked_achievements (n : String) (st : LoopSt) :
    (setUnlocked n st).store.achievements = unlock_first n st.store.achievements := rfl
@[simp] theorem setUnlocked_gm (n : String) (st : LoopSt) :
    (setUnlocked n st).store.goals_met_count = st.store.goals_met_count := rfl
@[simp] theorem setUnlocked_newly (n : String) (st : LoopSt) :
    (setUnlocked n st).newly = st.newly := rfl
@[simp] theorem setUnlocked_opIdx (n : String) (st : LoopSt) :
    (setUnlocked n st).opIdx = st.opIdx := rfl
@[simp] theorem awardBonusSt_achievements (us : UserStats) (d : AchievementDef)
    (st : LoopSt) :
    (awardBonusSt us d st).store.achievements = st.store.achievements := rfl
@[simp] theorem awardBonusSt_gm (us : UserStats) (d : AchievementDef) (st : LoopSt) :
    (awardBonusSt us d st).store.goals_met_count = st.store.goals_met_count := rfl
@[simp] theorem awardBonusSt_newly (us : UserStats) (d : AchievementDef)
    (st : LoopSt) : (awardBonusSt us d st).newly = st.newly := rfl
@[simp] theorem awardBonusSt_opIdx (us : UserStats) (d : AchievementDef)
    (st : LoopSt) : (awardBonusSt us d st).opIdx = st.opIdx := rfl

theorem opFails_none (c : Nat) : opFails none c = false := rfl

theorem opFails_of_lt (k c : Nat) (h : k < c) : opFails (some k) c = false := by
  simp only [opFails, Option.some.injEq, decide_eq_false_iff_not]
  omega

theorem awardStep_none_cont (us : UserStats) (d : AchievementDef) (st : LoopSt) :
    (awardStep us none d st).2 = true := by
  rw [awardStep]
  split_ifs <;> simp_all [opFails_none]

theorem awardStep_none_achs (us : UserStats) (d : AchievementDef) (st : LoopSt) :
    (awardStep us none d st).1.store.achievements = st.store.achievements := by
  rw [awardStep]
  split_ifs <;> simp_all [opFails_none]

theorem awardStep_none_newly (us : UserStats) (d : AchievementDef) (st : LoopSt) :
    (awardStep us none d st).1.newly = st.newly := by
  rw [awardStep]
  split_ifs <;> simp_all [opFails_none]

theorem awardStep_none_gm (us : UserStats) (d : AchievementDef) (st : LoopSt) :
    (awardStep us none d st).1.store.goals_met_count
      = st.store.goals_met_count := by
  rw [awardStep]
  split_ifs <;> simp_all [opFails_none]

theorem unlockStep_none_cont (us : UserStats) (aN : List String)
    (d : AchievementDef) (st : LoopSt) :
    (unlockStep us aN none d st).2 = true := by
  rw [unlockStep]
  split_ifs <;> first
    | rfl
    | exact awardStep_none_cont _ _ _
    | simp_all [opFails_none]

theorem unlockStep_nocreate (us : UserStats) (aN : List String)
    (failAt : Option Nat) (d : AchievementDef) (st : LoopSt)
    (haN : d.name ∉ aN) :
    unlockStep us aN failAt d st = (st, true) := by
  rw [unlockStep, if_neg haN]

theorem unlockStep_none_newly (us : UserStats) (aN : List String)
    (d : AchievementDef) (st : LoopSt) (haN : d.name ∈ aN) :
    (unlockStep us aN none d st).1.newly = st.newly ++ [d.name] := by
  rw [unlockStep, if_pos haN]
  simp only [opFails_none, Bool.false_eq_true, if_false]
  rw [awardStep_none_newly]
  simp

theorem unlockStep_none_gm (us : UserStats) (aN : List String)
    (d : AchievementDef) (st : LoopSt) :
    (unlockStep us aN none d st).1.store.goals_met_count
      = st.store.goals_met_count := by
  rw [unlockStep]
  split_ifs <;> first
    | rfl
    | (rw [awardStep_none_gm]; simp)
    | simp_all [opFails_none]

theorem unlockStep_none_mono (us : UserStats) (aN : List String)
    (d : AchievementDef) (st : LoopSt) (n : String)
    (h : isUnlockedIn n st.store.achievements) :
    isUnlockedIn n (unlockStep us aN none d st).1.store.achievements := by
  unfold isUnlockedIn at h ⊢
  rw [unlockStep]
  split_ifs <;> first
    | exact h
    | (rw [awardStep_none_achs]
       simp only [bumpOp_store, pushNewly_store, setUnlocked_achievements]
       exact unlock_first_mem_true n _ _ h)
    | simp_all [opFails_none]

theorem unlockStep_none_namesEq (us : UserStats) (aN : List String)
    (d : AchievementDef) (st : LoopSt) :
    namesOf (unlockStep us aN none d st).1.store.achievements
      = namesOf st.store.achievements := by
  rw [unlockStep]
  split_ifs <;> first
    | rfl
    | (rw [awardStep_none_achs]
       simp only [bumpOp_store, pushNewly_store, setUnlocked_achievements]
       exact unlock_first_names _ _)
    | simp_all [opFails_none]

theorem unlockStep_none_unlocks (us : UserStats) (aN : List String)
    (d : AchievementDef) (st : LoopSt) (haN : d.name ∈ aN)
    (hsub : d.name ∈ namesOf st.store.achievements) :
    isUnlockedIn d.name (unlockStep us aN none d st).1.store.achievements := by
  unfold isUnlockedIn
  rw [unlockStep, if_pos haN]
  simp only [opFails_none, Bool.false_eq_true, if_false]
  rw [awardStep_none_achs]
  simp only [bumpOp_store, pushNewly_store, setUnlocked_achievements]
  exact unlock_first_unlocks _ _ hsub

theorem cauStep_none_cont (us : UserStats) (gm : Nat) (aN uN : List String)
    (d : AchievementDef) (st : LoopSt) :
    (cauStep us gm aN uN none d st).2 = true := by
  rw [cauStep]
  simp only [opFails_none, Bool.false_eq_true, and_false, if_false]
  split_ifs <;> first
    | rfl
    | exact unlockStep_none_cont _ _ _ _

theorem cauStep_none_mono (us : UserStats) (gm : Nat) (aN uN : List String)
    (d : AchievementDef) (st : LoopSt) (n : String)
    (h : isUnlockedIn n st.store.achievements) :
    isUnlockedIn n (cauStep us gm aN uN none d st).1.store.achievements := by
  rw [cauStep]
  simp only [opFails_none, Bool.false_eq_true, and_false, if_false]
  split_ifs <;> first
    | exact h
    | exact unlockStep_none_mono _ _ _ _ n h
    | exact unlockStep_none_mono _ _ _ (bumpOp st) n h

theorem cauStep_none_namesEq (us : UserStats) (gm : Nat) (aN uN : List String)
    (d : AchievementDef) (st : LoopSt) :
    namesOf (cauStep us gm aN uN none d st).1.store.achievements
      = namesOf st.store.achievements := by
  rw [cauStep]
  simp only [opFails_none, Bool.false_eq_true, and_false, if_false]
  split_ifs <;> first
    | rfl
    | exact unlockStep_none_namesEq _ _ _ _
    | (rw [unlockStep_none_namesEq]; rfl)

theorem cauStep_none_gm (us : UserStats) (gm : Nat) (aN uN : List String)
    (d : AchievementDef) (st : LoopSt) :
    (cauStep us gm aN uN none d st).1.store.goals_met_count
      = st.store.goals_met_count := by
  rw [cauStep]
  simp only [opFails_none, Bool.false_eq_true, and_false, if_false]
  split_ifs <;> first
    | rfl
    | (rw [unlockStep_none_gm]; simp)
    | rw [unlockStep_none_gm]

theorem cauStep_none_unlocks (us : UserStats) (gm : Nat) (aN uN : List String)
    (d : AchievementDef) (st : LoopSt) (hn : d.name ∉ uN)
    (hc : check_requirement gm d us = true) (haN : d.name ∈ aN)
    (hsub : d.name ∈ namesOf st.store.achievements) :
    isUnlockedIn d.name (cauStep us gm aN uN none d st).1.store.achievements := by
  rw [cauStep]
  simp only [opFails_none, Bool.false_eq_true, and_false, if_false]
  split_ifs <;> first
    | (exact absurd (show d.name ∈ uN by assumption) hn)
    | (exact absurd hc (by assumption))
    | exact unlockStep_none_unlocks _ _ _ _ haN hsub
    | exact unlockStep_none_unlocks _ _ _ (bumpOp st) haN hsub

theorem cauStep_skip (us : UserStats) (gm : Nat) (aN uN : List String)
    (failAt : Option Nat) (d : AchievementDef) (st : LoopSt) (h : d.name ∈ uN) :
    cauStep us gm aN uN failAt d st = (st, true) := by
  rw [cauStep, if_pos h]

theorem cauStep_check_false (us : UserStats) (gm : Nat) (aN uN : List String)
    (d : AchievementDef) (st : LoopSt)
    (hc : check_requirement gm d us = false) :
    (cauStep us gm aN uN none d st).1.store = st.store ∧
      (cauStep us gm aN uN none d st).1.newly = st.newly := by
  rw [cauStep]
  simp only [opFails_none, Bool.false_eq_true, and_false, if_false]
  split_ifs <;> simp_all

theorem cauStep_unlock_newly (us : UserStats) (gm : Nat) (aN uN : List String)
    (d : AchievementDef) (st : LoopSt) (hn : d.name ∉ uN)
    (hc : check_requirement gm d us = true) (haN : d.name ∈ aN) :
    (cauStep us gm aN uN none d st).1.newly = st.newly ++ [d.name] := by
  rw [cauStep]
  simp only [opFails_none, Bool.false_eq_true, and_false, if_false]
  split_ifs <;> first
    | (exact absurd (show d.name ∈ uN by assumption) hn)
    | (exact absurd hc (by assumption))
    | (rw [unlockStep_none_newly _ _ _ _ haN]; simp)
    | (rw [unlockStep_none_newly _ _ _ _ haN])

theorem cauStep_inert (us : UserStats) (gm : Nat) (aN uN : List String)
    (d : AchievementDef) (st : LoopSt)
    (h : d.name ∈ uN ∨ check_requirement gm d us = false ∨ d.name ∉ aN) :
    (cauStep us gm aN uN none d st).1.store = st.store ∧
      (cauStep us gm aN uN none d st).1.newly = st.newly := by
  rcases h with h | h | h
  · rw [cauStep_skip us gm aN uN none d st h]
    exact ⟨rfl, rfl⟩
  · exact cauStep_check_false us gm aN uN d st h
  · rw [cauStep]
    simp only [opFails_none, Bool.false_eq_true, and_false, if_false]
    split_ifs <;> first
      | exact ⟨rfl, rfl⟩
      | (rw [unlockStep_nocreate _ _ _ _ _ h]
         exact ⟨rfl, rfl⟩)

theorem cauLoop_none_cons (us : UserStats) (gm : Nat) (aN uN : List String)
    (d : AchievementDef) (ds : List AchievementDef) (st : LoopSt) :
    cauLoop us gm aN uN none (d :: ds) st
      = cauLoop us gm aN uN none ds (cauStep us gm aN uN none d st).1 := by
  rw [cauLoop]
  simp only [cauStep_none_cont, if_true]

theorem cauLoop_none_mono (us : UserStats) (gm : Nat) (aN uN : List String)
    (ds : List AchievementDef) (st : LoopSt) (n : String)
    (h : isUnlockedIn n st.store.achievements) :
    isUnlockedIn n (cauLoop us gm aN uN none ds st).store.achievements := by
  induction ds generalizing st with
  | nil => exact h
  | cons d ds ih =>
    rw [cauLoop_none_cons]
    exact ih _ (cauStep_none_mono us gm aN uN d st n h)

theorem cauLoop_none_namesEq (us : UserStats) (gm : Nat) (aN uN : List String)
    (ds : List AchievementDef) (st : LoopSt) :
    namesOf (cauLoop us gm aN uN none ds st).store.achievements
      = namesOf st.store.achievements := by
  induction ds generalizing st with
  | nil => rfl
  | cons d ds ih =>
    rw [cauLoop_none_cons, ih, cauStep_none_namesEq]

theorem cauLoop_none_gm (us : UserStats) (gm : Nat) (aN uN : List String)
    (ds : List AchievementDef) (st : LoopSt) :
    (cauLoop us gm aN uN none ds st).store.goals_met_count
      = st.store.goals_met_count := by
  induction ds generalizing st with
  | nil => rfl
  | cons d ds ih =>
    rw [cauLoop_none_cons, ih, cauStep_none_gm]

theorem cauLoop_none_estab (us : UserStats) (gm : Nat) (aN uN : List String)
    (ds : List AchievementDef) (st : LoopSt)
    (hsub : ∀ m, m ∈ aN → m ∈ namesOf st.store.achievements)
    (d : AchievementDef) (hd : d ∈ ds) :
    d.name ∈ uN ∨ check_requirement gm d us = false ∨ d.name ∉ aN ∨
      isUnlockedIn d.name (cauLoop us gm aN uN none ds st).store.achievements := by
  induction ds generalizing st with
  | nil => simp at hd
  | cons e es ih =>
    rw [cauLoop_none_cons]
    rcases List.mem_cons.mp hd with rfl | hd2
    · by_cases h1 : d.name ∈ uN
      · exact Or.inl h1
      · by_cases h2 : check_requirement gm d us = true
        · by_cases h3 : d.name ∈ aN
          · refine Or.inr (Or.inr (Or.inr ?_))
            refine cauLoop_none_mono us gm aN uN es _ d.name ?_
            exact cauStep_none_unlocks us gm aN uN d st h1 h2 h3
              (hsub d.name h3)
          · exact Or.inr (Or.inr (Or.inl h3))
        · exact Or.inr (Or.inl (by simpa using h2))
    · refine ih _ ?_ hd2
      intro m hm
      rw [cauStep_none_namesEq]
      exact hsub m hm

theorem cauLoop_skip (us : UserStats) (gm : Nat) (aN uN : List String)
    (ds : List AchievementDef) (st : LoopSt)
    (h : ∀ d ∈ ds, d.name ∈ uN ∨ check_requirement gm d us = false
      ∨ d.name ∉ aN) :
    (cauLoop us gm aN uN none ds st).store = st.store ∧
      (cauLoop us gm aN uN none ds st).newly = st.newly := by
  induction ds generalizing st with
  | nil => exact ⟨rfl, rfl⟩
  | cons e es ih =>
    rw [cauLoop_none_cons]
    have hstep := cauStep_inert us gm aN uN e st (h e (List.mem_cons_self _ _))
    have hrest := ih (cauStep us gm aN uN none e st).1
      (fun d hd => h d (List.mem_cons_of_mem _ hd))
    exact ⟨hrest.1.trans hstep.1, hrest.2.trans hstep.2⟩

theorem cau_unfold_some (store : Store) (u : UserStats) :
    check_and_unlock_achievements none store (some u) =
      ((cauLoop u store.goals_met_count (namesOf store.achievements)
          (unlockedNamesOf store.achievements) none
          extended_achievement_definitions ⟨store, [], 1, false⟩).store,
        (cauLoop u store.goals_met_count (namesOf store.achievements)
          (unlockedNamesOf store.achievements) none
          extended_achievement_definitions ⟨store, [], 1, false⟩).newly) := rfl

/-- C3: running `check_and_unlock_achievements` a second time with the
same user stats, after the first call's unlock state has been persisted,
returns an empty list: every definition is either already in the
unlocked-names snapshot, was unlocked (and persisted) by the first call,
still fails its requirement, or has no row in the achievements table —
and then the broken `create` call raises and is skipped again, since the
first call never inserts rows (row names are invariant across a call). -/
theorem check_and_unlock_idempotent (store : Store) (us : Option UserStats) :
    (check_and_unlock_achievements none
      (check_and_unlock_achievements none store us).1 us).2 = [] := by
  cases us with
  | none => rfl
  | some u =>
    rw [cau_unfold_some, cau_unfold_some]
    have hgm := cauLoop_none_gm u store.goals_met_count
      (namesOf store.achievements) (unlockedNamesOf store.achievements)
      extended_achievement_definitions ⟨store, [], 1, false⟩
    have hnames := cauLoop_none_namesEq u store.goals_met_count
      (namesOf store.achievements) (unlockedNamesOf store.achievements)
      extended_achievement_definitions ⟨store, [], 1, false⟩
    refine (cauLoop_skip u _ _ _ extended_achievement_definitions _ ?_).2
    intro d hd
    have h3 := cauLoop_none_estab u store.goals_met_count
      (namesOf store.achievements) (unlockedNamesOf store.achievements)
      extended_achievement_definitions ⟨store, [], 1, false⟩
      (fun m hm => hm) d hd
    rcases h3 with h | h | h | h
    · left
      rw [mem_unlockedNamesOf]
      exact cauLoop_none_mono u store.goals_met_count
        (namesOf store.achievements) (unlockedNamesOf store.achievements)
        extended_achievement_definitions ⟨store, [], 1, false⟩ d.name
        ((mem_unlockedNamesOf _ _).mp h)
    · right
      left
      rw [hgm]
      exact h
    · right
      right
      rw [hnames]
      exact h
    · left
      rw [mem_unlockedNamesOf]
      exact h

theorem cauLoop_none_newly (us : UserStats) (gm : Nat) (aN uN : List String)
    (ds : List AchievementDef) (st : LoopSt) :
    (cauLoop us gm aN uN none ds st).newly
      = st.newly ++ appendedNames us gm aN uN ds := by
  induction ds generalizing st with
  | nil => simp [cauLoop, appendedNames]
  | cons d ds ih =>
    rw [cauLoop_none_cons, ih]
    by_cases h1 : d.name ∈ uN
    · rw [cauStep_skip us gm aN uN none d st h1]
      simp [appendedNames, h1]
    · by_cases h2 : check_requirement gm d us = true
      · by_cases h3 : d.name ∈ aN
        · rw [cauStep_unlock_newly us gm aN uN d st h1 h2 h3]
          simp [appendedNames, h1, h2, h3]
        · rw [(cauStep_inert us gm aN uN d st (Or.inr (Or.inr h3))).2]
          simp only [appendedNames, List.filter_cons]
          have hcond : (decide (d.name ∉ uN) && check_requirement gm d us
              && decide (d.name ∈ aN)) = false := by
            simp [h3]
          rw [hcond]
          simp
      · rw [(cauStep_check_false us gm aN uN d st (by simpa using h2)).2]
        simp only [appendedNames, List.filter_cons]
        have hcond : (decide (d.name ∉ uN) && check_requirement gm d us
            && decide (d.name ∈ aN)) = false := by
          simp_all
        rw [hcond]
        simp

theorem awardStep_opIdx_le (us : UserStats) (failAt : Option Nat)
    (d : AchievementDef) (st : LoopSt) :
    st.opIdx ≤ (awardStep us failAt d st).1.opIdx := by
  rw [awardStep]
  split_ifs <;> simp

theorem unlockStep_opIdx_le (us : UserStats) (aN : List String)
    (failAt : Option Nat) (d : AchievementDef) (st : LoopSt) :
    st.opIdx ≤ (unlockStep us aN failAt d st).1.opIdx := by
  rw [unlockStep]
  split_ifs <;> first
    | simp
    | (refine le_trans ?_ (awardStep_opIdx_le us failAt d _)
       simp)

theorem cauStep_opIdx_le (us : UserStats) (gm : Nat) (aN uN : List String)
    (failAt : Option Nat) (d : AchievementDef) (st : LoopSt) :
    st.opIdx ≤ (cauStep us gm aN uN failAt d st).1.opIdx := by
  rw [cauStep]
  split_ifs <;> first
    | (simp; done)
    | exact le_trans (by simp) (unlockStep_opIdx_le us aN failAt d (bumpOp st))
    | exact unlockStep_opIdx_le us aN failAt d st

theorem awardStep_passed (us : UserStats) (k : Nat) (d : AchievementDef)
    (st : LoopSt) (h : k < st.opIdx) :
    awardStep us (some k) d st = awardStep us none d st := by
  rw [awardStep, awardStep, opFails_none, opFails_of_lt k _ h]

theorem unlockStep_passed (us : UserStats) (aN : List String) (k : Nat)
    (d : AchievementDef) (st : LoopSt) (h : k < st.opIdx) :
    unlockStep us aN (some k) d st = unlockStep us aN none d st := by
  rw [unlockStep, unlockStep, opFails_none, opFails_of_lt k _ h]
  have h2 : k < (bumpOp (pushNewly d.name (setUnlocked d.name st))).opIdx := by
    simp
    omega
  rw [awardStep_passed us k d _ h2]

theorem cauStep_passed (us : UserStats) (gm : Nat) (aN uN : List String)
    (k : Nat) (d : AchievementDef) (st : LoopSt) (h : k < st.opIdx) :
    cauStep us gm aN uN (some k) d st = cauStep us gm aN uN none d st := by
  by_cases hskip : d.name ∈ uN
  · rw [cauStep_skip us gm aN uN (some k) d st hskip,
      cauStep_skip us gm aN uN none d st hskip]
  · rw [cauStep, cauStep, if_neg hskip, if_neg hskip, opFails_none,
      opFails_of_lt k _ h]
    simp only [Bool.false_eq_true, and_false, if_false]
    by_cases hgm : d.requirement_type = "daily_goals_met" <;>
      simp only [hgm, ite_true, ite_false, if_true, if_false] <;>
      by_cases hc : check_requirement gm d us <;>
      simp only [hc, Bool.false_eq_true, ite_true, ite_false, if_true, if_false,
        Bool.not_eq_true] <;>
      try rfl
    · exact unlockStep_passed us aN k d (bumpOp st) (by simp; omega)
    · exact unlockStep_passed us aN k d st h

theorem cauLoop_passed (us : UserStats) (gm : Nat) (aN uN : List String)
    (k : Nat) (ds : List AchievementDef) (st : LoopSt) (h : k < st.opIdx) :
    cauLoop us gm aN uN (some k) ds st = cauLoop us gm aN uN none ds st := by
  induction ds generalizing st with
  | nil => rfl
  | cons d ds ih =>
    rw [cauLoop, cauLoop, cauStep_passed us gm aN uN k d st h,
      cauStep_none_cont us gm aN uN d st]
    simp only [if_true]
    exact ih _ (lt_of_lt_of_le h (cauStep_opIdx_le us gm aN uN none d st))

theorem cauStep_eval_gmfail (us : UserStats) (gm : Nat) (aN uN : List String)
    (failAt : Option Nat) (d : AchievementDef) (st : LoopSt)
    (hskip : d.name ∉ uN) (hgm : d.requirement_type = "daily_goals_met")
    (hf : opFails failAt st.opIdx = true) :
    cauStep us gm aN uN failAt d st = (raiseOp st, false) := by
  rw [cauStep, if_neg hskip, if_pos ⟨hgm, hf⟩]

theorem cauStep_eval_main (us : UserStats) (gm : Nat) (aN uN : List String)
    (failAt : Option Nat) (d : AchievementDef) (st : LoopSt)
    (hskip : d.name ∉ uN)
    (hnf : ¬(d.requirement_type = "daily_goals_met" ∧ opFails failAt st.opIdx = true)) :
    cauStep us gm aN uN failAt d st =
      if check_requirement gm d us then
        unlockStep us aN failAt d
          (if d.requirement_type = "daily_goals_met" then bumpOp st else st)
      else ((if d.requirement_type = "daily_goals_met" then bumpOp st else st),
        true) := by
  rw [cauStep, if_neg hskip, if_neg hnf]

theorem unlockStep_eval_setfail (us : UserStats) (aN : List String)
    (failAt : Option Nat) (d : AchievementDef) (st : LoopSt)
    (haN : d.name ∈ aN) (hf : opFails failAt st.opIdx = true) :
    unlockStep us aN failAt d st = (raiseOp st, false) := by
  rw [unlockStep, if_pos haN, if_pos hf]

theorem unlockStep_eval_set (us : UserStats) (aN : List String)
    (failAt : Option Nat) (d : AchievementDef) (st : LoopSt)
    (haN : d.name ∈ aN) (hf : opFails failAt st.opIdx = false) :
    unlockStep us aN failAt d st
      = awardStep us failAt d
          (bumpOp (pushNewly d.name (setUnlocked d.name st))) := by
  rw [unlockStep, if_pos haN, hf]
  simp

theorem awardStep_eval_fail (us : UserStats) (failAt : Option Nat)
    (d : AchievementDef) (st : LoopSt) (hb : 0 < d.bonus_points)
    (hf : opFails failAt st.opIdx = true) :
    awardStep us failAt d st = (raiseOp st, false) := by
  rw [awardStep, if_pos hb, if_pos hf]

theorem awardStep_eval_ok (us : UserStats) (failAt : Option Nat)
    (d : AchievementDef) (st : LoopSt) (hb : 0 < d.bonus_points)
    (hf : opFails failAt st.opIdx = false) :
    awardStep us failAt d st = (bumpOp (awardBonusSt us d st), true) := by
  rw [awardStep, if_pos hb, hf]
  simp

theorem awardStep_eval_nobonus (us : UserStats) (failAt : Option Nat)
    (d : AchievementDef) (st : LoopSt) (hb : ¬0 < d.bonus_points) :
    awardStep us failAt d st = (st, true) := by
  rw [awardStep, if_neg hb]

theorem award_tail_sublist (us : UserStats) (gm : Nat) (aN uN : List String)
    (k : Nat) (d : AchievementDef) (ds : List AchievementDef) (st2 : LoopSt)
    (ih : ∀ st, List.Sublist (cauLoop us gm aN uN (some k) ds st).newly
        (cauLoop us gm aN uN none ds st).newly) :
    List.Sublist
      ((if (awardStep us (some k) d st2).2 = true
        then cauLoop us gm aN uN (some k) ds (awardStep us (some k) d st2).1
        else (awardStep us (some k) d st2).1).newly)
      ((cauLoop us gm aN uN none ds (awardStep us none d st2).1).newly) := by
  by_cases hb : 0 < d.bonus_points
  · by_cases hf : opFails (some k) st2.opIdx = true
    · rw [awardStep_eval_fail us (some k) d st2 hb hf,
        awardStep_eval_ok us none d st2 hb (opFails_none _),
        cauLoop_none_newly]
      simp only [Bool.false_eq_true, if_false, raiseOp_newly, bumpOp_newly,
        awardBonusSt_newly]
      exact List.sublist_append_left st2.newly _
    · rw [awardStep_eval_ok us (some k) d st2 hb (by simpa using hf),
        awardStep_eval_ok us none d st2 hb (opFails_none _)]
      simp only [if_true]
      exact ih _
  · rw [awardStep_eval_nobonus us (some k) d st2 hb,
      awardStep_eval_nobonus us none d st2 hb]
    simp only [if_true]
    exact ih st2

theorem unlock_tail_sublist (us : UserStats) (gm : Nat) (aN uN : List String)
    (k : Nat) (d : AchievementDef) (ds : List AchievementDef) (st1 : LoopSt)
    (ih : ∀ st, List.Sublist (cauLoop us gm aN uN (some k) ds st).newly
        (cauLoop us gm aN uN none ds st).newly) :
    List.Sublist
      ((if (unlockStep us aN (some k) d st1).2 = true
        then cauLoop us gm aN uN (some k) ds (unlockStep us aN (some k) d st1).1
        else (unlockStep us aN (some k) d st1).1).newly)
      ((cauLoop us gm aN uN none ds (unlockStep us aN none d st1).1).newly) := by
  by_cases haN : d.name ∈ aN
  · by_cases hf : opFails (some k) st1.opIdx = true
    · rw [unlockStep_eval_setfail us aN (some k) d st1 haN hf,
        unlockStep_eval_set us aN none d st1 haN (opFails_none _),
        cauLoop_none_newly, awardStep_none_newly]
      simp only [Bool.false_eq_true, if_false, raiseOp_newly, bumpOp_newly,
        pushNewly_newly, setUnlocked_newly, List.append_assoc]
      exact List.sublist_append_left st1.newly _
    · rw [unlockStep_eval_set us aN (some k) d st1 haN (by simpa using hf),
        unlockStep_eval_set us aN none d st1 haN (opFails_none _)]
      exact award_tail_sublist us gm aN uN k d ds _ ih
  · rw [unlockStep_nocreate us aN (some k) d st1 haN,
      unlockStep_nocreate us aN none d st1 haN]
    simp only [if_true]
    exact ih st1

theorem cauLoop_fault_sublist (us : UserStats) (gm : Nat) (aN uN : List String)
    (k : Nat) (ds : List AchievementDef) (st : LoopSt) :
    List.Sublist (cauLoop us gm aN uN (some k) ds st).newly
      (cauLoop us gm aN uN none ds st).newly := by
  induction ds generalizing st with
  | nil => exact List.Sublist.refl _
  | cons d ds ih =>
    by_cases hpass : k < st.opIdx
    · rw [cauLoop_passed us gm aN uN k (d :: ds) st hpass]
    · by_cases hskip : d.name ∈ uN
      · rw [cauLoop, cauLoop, cauStep_skip us gm aN uN (some k) d st hskip,
          cauStep_skip us gm aN uN none d st hskip]
        simpa using ih st
      · by_cases hgmf : d.requirement_type = "daily_goals_met"
            ∧ opFails (some k) st.opIdx = true
        · have hfree := cauLoop_none_newly us gm aN uN (d :: ds) st
          rw [cauLoop,
            cauStep_eval_gmfail us gm aN uN (some k) d st hskip hgmf.1 hgmf.2,
            hfree]
          simp only [Bool.false_eq_true, if_false, raiseOp_newly]
          exact List.sublist_append_left st.newly _
        · rw [cauLoop, cauLoop,
            cauStep_eval_main us gm aN uN (some k) d st hskip hgmf,
            cauStep_eval_main us gm aN uN none d st hskip
              (by simp [opFails_none])]
          by_cases hc : check_requirement gm d us = true
          · simp only [hc, if_true, ite_true]
            rw [unlockStep_none_cont]
            simp only [if_true]
            exact unlock_tail_sublist us gm aN uN k d ds _ ih
          · have hc2 : check_requirement gm d us = false := by
              simpa using hc
            simp only [hc2, Bool.false_eq_true, if_false]
            exact ih _

/-- C9 (amended): a database error raised during unlock-checking is
caught rather than propagated, and the call returns exactly the
achievements unlocked before the error — always a subsequence of the
error-free run's unlocks; when the error occurs on the initial fetch of
achievement state (operation 0), before any unlock, the result is empty
and the store is untouched. -/
theorem check_and_unlock_error_degrades (store : Store) (us : Option UserStats)
    (k : Nat) :
    List.Sublist (check_and_unlock_achievements (some k) store us).2
      (check_and_unlock_achievements none store us).2 ∧
    (k = 0 → check_and_unlock_achievements (some k) store us = (store, [])) := by
  constructor
  · cases us with
    | none => exact List.Sublist.refl _
    | some u =>
      by_cases hk : k = 0
      · subst hk
        simp only [check_and_unlock_achievements]
        rw [if_pos (by rfl)]
        exact List.nil_sublist _
      · have hf : opFails (some k) 0 = false := by
          simp only [opFails, Option.some.injEq, decide_eq_false_iff_not]
          omega
        simp only [check_and_unlock_achievements, hf, opFails_none,
          Bool.false_eq_true, if_false]
        exact cauLoop_fault_sublist u store.goals_met_count
          (namesOf store.achievements) (unlockedNamesOf store.achievements) k
          extended_achievement_definitions ⟨store, [], 1, false⟩
  · intro hk
    subst hk
    cases us with
    | none => rfl
    | some u =>
      simp only [check_and_unlock_achievements]
      rw [if_pos (by rfl)]

/-- Witness for C9: a failure of the initial fetch on an empty store
yields an unchanged store and no unlocks. -/
theorem check_and_unlock_error_degrades_witness :
    check_and_unlock_achievements (some 0) ⟨[], 0, 0, 0⟩
      (some initial_user_stats) = (⟨[], 0, 0, 0⟩, []) :=
  (check_and_unlock_error_degrades ⟨[], 0, 0, 0⟩ (some initial_user_stats) 0).2 rfl

/-- Counterexample for C9 as stated: with one completed task and a store
holding a locked "First Steps" row (as the schema seeds), a database
error at the bonus-award write (operation 2) — after the row was updated
by `unlock_achievement` and appended to `newly_unlocked` — is caught,
but the call reports `["First Steps"]`, not an empty list. -/
theorem partial_unlock_on_error :
    (check_and_unlock_achievements (some 2) ⟨[("First Steps", false)], 0, 0, 0⟩
      (some { initial_user_stats with total_tasks_completed := 1 })).2
        = ["First Steps"] ∧
    ("First Steps" :: ([] : List String)) ≠ [] := by
  constructor
  · decide
  · decide

/-- C2 (code bug): on a store holding locked rows for "First Steps"
(bonus 10) and "Day One" (bonus 5) — two of the schema-seeded
achievements — a user with one completed task and a 1-day streak unlocks
both in one call, but each `_award_achievement_bonus` computes from the
stale `user_stats` snapshot, so the stored `total_points` ends at 5 —
not 0 + 15 — and `achievements_unlocked` at 1 — not 2.  The second block
shows the single-unlock case, where the increments are exact (+10, +1) as
the claim's scenario states.  (Definitions with no row at all are never
unlocked: the source's `achievement_repo.create` does not exist, so that
path raises and is swallowed; see `unlockStep`.) -/
theorem achievement_bonus_lost_update :
    ((check_and_unlock_achievements none
        ⟨[("First Steps", false), ("Day One", false)], 0, 0, 0⟩
        (some { initial_user_stats with
          total_tasks_completed := 1, current_streak_days := 1 })).2
      = ["First Steps", "Day One"] ∧
     (check_and_unlock_achievements none
        ⟨[("First Steps", false), ("Day One", false)], 0, 0, 0⟩
        (some { initial_user_stats with
          total_tasks_completed := 1, current_streak_days := 1 })).1.total_points
      = 5 ∧
     (check_and_unlock_achievements none
        ⟨[("First Steps", false), ("Day One", false)], 0, 0, 0⟩
        (some { initial_user_stats with
          total_tasks_completed := 1,
          current_streak_days := 1 })).1.achievements_unlocked = 1) ∧
    ((check_and_unlock_achievements none ⟨[("First Steps", false)], 0, 0, 0⟩
        (some { initial_user_stats with total_tasks_completed := 1 })).2
      = ["First Steps"] ∧
     (check_and_unlock_achievements none ⟨[("First Steps", false)], 0, 0, 0⟩
        (some { initial_user_stats with total_tasks_completed := 1 })).1.total_points
      = 10 ∧
     (check_and_unlock_achievements none ⟨[("First Steps", false)], 0, 0, 0⟩
        (some { initial_user_stats with
          total_tasks_completed := 1 })).1.achievements_unlocked = 1) := by
  refine ⟨⟨?_, ?_, ?_⟩, ?_, ?_, ?_⟩ <;> decide

theorem activeCount_cons (g : Goal) (gs : List Goal) (t : GoalType)
    (c : GoalCategory) :
    activeCount (g :: gs) t c
      = activeCount gs t c
        + (if g.goal_type = t ∧ g.category = c ∧ g.is_active then 1 else 0) := by
  rw [activeCount, activeCount, List.filter_cons]
  split_ifs with h1 h2 h3 <;> simp_all

theorem activeCount_deactivate_self (t : GoalType) (c : GoalCategory)
    (goals : List Goal) :
    activeCount (deactivate_existing_goals t c goals) t c = 0 := by
  induction goals with
  | nil => rfl
  | cons g gs ih =>
    rw [deactivate_existing_goals, List.map_cons, activeCount_cons]
    rw [deactivate_existing_goals] at ih
    rw [ih]
    split_ifs with h1 h2 <;> simp_all

theorem activeCount_deactivate_other (t : GoalType) (c : GoalCategory)
    (t2 : GoalType) (c2 : GoalCategory) (goals : List Goal)
    (hne : ¬(t = t2 ∧ c = c2)) :
    activeCount (deactivate_existing_goals t c goals) t2 c2
      = activeCount goals t2 c2 := by
  induction goals with
  | nil => rfl
  | cons g gs ih =>
    rw [deactivate_existing_goals, List.map_cons, activeCount_cons,
      activeCount_cons]
    rw [deactivate_existing_goals] at ih
    rw [ih]
    split_ifs with h1 h2 h3 <;> simp_all

theorem activeCount_append (l1 l2 : List Goal) (t : GoalType)
    (c : GoalCategory) :
    activeCount (l1 ++ l2) t c = activeCount l1 t c + activeCount l2 t c := by
  rw [activeCount, activeCount, activeCount, List.filter_append,
    List.length_append]

/-- C7: `create_goal` first deactivates (does not delete) every active
goal with the same `(type, category)` — the new row list keeps every
previous id and appends the new one — inserts an active goal with
`current_value = 0`, and preserves the at-most-one-active-goal-per-pair
invariant from any state satisfying it. -/
theorem create_goal_active_invariant (goals : List Goal) (t : GoalType)
    (c : GoalCategory) (target : Int) (nid : Nat) (ps pe : Int)
    (hinv : goalInvariant goals) :
    goalInvariant (create_goal goals t c target nid ps pe).1 ∧
    (create_goal goals t c target nid ps pe).2.current_value = 0 ∧
    (create_goal goals t c target nid ps pe).2.is_active = true ∧
    ((create_goal goals t c target nid ps pe).1).map (fun g => g.id)
      = goals.map (fun g => g.id) ++ [nid] := by
  refine ⟨?_, rfl, rfl, ?_⟩
  · intro t2 c2
    rw [create_goal]
    simp only [activeCount_append]
    by_cases h : t = t2 ∧ c = c2
    · rw [h.1, h.2] at *
      rw [activeCount_deactivate_self]
      simp [activeCount, List.filter]
    · rw [activeCount_deactivate_other t c t2 c2 goals h]
      have hnew : activeCount
          [(⟨nid, t, c, target, 0, ps, pe, true⟩ : Goal)] t2 c2 = 0 := by
        by_cases h1 : t = t2 <;> by_cases h2 : c = c2 <;>
          simp_all [activeCount, List.filter]
      rw [hnew]
      have := hinv t2 c2
      omega
  · rw [create_goal]
    simp only [List.map_append, List.map_cons, List.map_nil]
    congr 1
    rw [deactivate_existing_goals, List.map_map]
    refine List.map_congr_left ?_
    intro g hg
    simp only [Function.comp]
    split_ifs <;> rfl

/-- Witness for C7: creating a second weekly tasks-completed goal on a
single-goal store keeps the invariant. -/
theorem create_goal_active_invariant_witness :
    goalInvariant (create_goal
      [⟨1, GoalType.weekly, GoalCategory.tasksCompleted, 10, 2, 0, 6, true⟩]
      GoalType.weekly GoalCategory.tasksCompleted 12 2 0 6).1 :=
  (create_goal_active_invariant _ _ _ _ _ _ _
    (fun t c => le_trans (List.length_filter_le _ _) (by simp))).1

/-- Counterexample for C8 as stated: for `current_streak_days = 1` (no
completion history, no existing goals) the proposed streak-extension goal
has `target_value = 7`, but `min(1 + 3, 7) = 4`. -/
theorem streak_suggestion_counterexample :
    ((get_goal_suggestions 0 0 1 []).map (fun s => (s.category, s.target_value)))
      = [(GoalCategory.streakDays, 7), (GoalCategory.pointsEarned, 55)] ∧
    (7 : Int) ≠ ((min (1 + 3) 7 : Nat) : Int) := by
  constructor
  · decide
  · decide

/-- C8 (amended): every streak-extension suggestion returned by
`get_goal_suggestions` for a user with a positive streak has
`target_value = min(max(current_streak + 3, 7), 7)`, which is always 7:
the source computes `max(current_streak + 3, 7)` ("at least 7 days") and
then clamps with `min(…, 7)` ("weekly max is 7"). -/
theorem streak_suggestion_target_seven (avgW avgM cs : Nat)
    (existing : List (GoalType × GoalCategory)) (hcs : 0 < cs)
    (s : Suggestion) (hs : s ∈ get_goal_suggestions avgW avgM cs existing)
    (hcat : s.category = GoalCategory.streakDays) :
    s.target_value = 7 ∧
      s.target_value = ((min (max (cs + 3) 7) 7 : Nat) : Int) := by
  have hmm : min (max (cs + 3) 7) 7 = 7 := by omega
  rw [get_goal_suggestions] at hs
  have hs2 := (List.filter_sublist _).subset ((List.take_sublist 3 _).subset hs)
  simp only [List.mem_append] at hs2
  rcases hs2 with ((h1 | h2) | h3) | h4
  · by_cases hw : 0 < avgW
    · rw [if_pos hw] at h1
      simp only [List.mem_singleton] at h1
      rw [h1] at hcat
      simp at hcat
    · rw [if_neg hw] at h1
      simp at h1
  · by_cases hm : 0 < avgM
    · rw [if_pos hm] at h2
      simp only [List.mem_singleton] at h2
      rw [h2] at hcat
      simp at hcat
    · rw [if_neg hm] at h2
      simp at h2
  · rw [if_pos hcs] at h3
    simp only [List.mem_singleton] at h3
    rw [h3]
    simp only [hmm]
    exact ⟨rfl, trivial⟩
  · simp only [List.mem_singleton] at h4
    rw [h4] at hcat
    simp at hcat

/-- Witness for C8 at streak 1 with no history and no existing goals. -/
theorem streak_suggestion_target_seven_witness :
    (0 : Nat) < 1 ∧
    (⟨GoalType.weekly, GoalCategory.streakDays, 7,
      "Extend your current 1-day streak", "achievable"⟩ : Suggestion).target_value
      = 7 :=
  ⟨by decide,
    (streak_suggestion_target_seven 0 0 1 [] (by decide) _ (by decide) rfl).1⟩
